import Mathlib

/-! Navigation guard of the parking application's router.

A shallow embedding of `frontend/src/router/index.js`: the static route table
passed to `createRouter` and the `router.beforeEach` navigation guard, together
with the fragment of JavaScript they rely on (truthiness, property access,
strict comparison with a string, `localStorage.getItem`, `JSON.parse`).

JavaScript strings are sequences of UTF-16 code units, so they are modelled as
lists of code units rather than as Lean strings.
-/

namespace Router

/-! ## JavaScript values -/

/-- A JavaScript string: its sequence of UTF-16 code units. -/
abbrev JSString := List Nat

/-- UTF-16 code units of one Unicode scalar value. -/
def utf16 (c : Char) : List Nat :=
  if c.toNat < 0x10000 then [c.toNat]
  else [0xD800 + (c.toNat - 0x10000) / 0x400, 0xDC00 + (c.toNat - 0x10000) % 0x400]

/-- The JavaScript string written as the given literal. -/
def js (s : String) : JSString :=
  s.data.flatMap utf16

/-- A number as `JSON.parse` reads it: the IEEE double nearest to
`± mantissa * 10 ^ exp10`. Only its sign, and whether it rounds to zero, are
observed by the guard. -/
structure JSNumber where
  neg : Bool
  mantissa : Nat
  exp10 : Int

/-- Whether the double nearest to the decimal is `0` or `-0`: the decimal is zero,
or it is at most `2 ^ (-1075)`, half of the least subnormal (ties go to even). -/
def JSNumber.isZero (n : JSNumber) : Bool :=
  n.mantissa == 0 ||
    (decide (n.exp10 < 0) && decide (n.mantissa * 2 ^ 1075 ≤ 10 ^ (-n.exp10).toNat))

/-- The values that `JSON.parse` can produce, and `undefined`. -/
inductive JSValue where
  | undefined
  | null
  | bool (b : Bool)
  | number (n : JSNumber)
  | string (s : JSString)
  | array (items : List JSValue)
  | object (props : List (JSString × JSValue))

/-- The exceptions the guard can meet. -/
inductive JSError where
  | SyntaxError
  | TypeError
  deriving DecidableEq

/-- ToBoolean of a string: the empty string is falsy. -/
def truthyString (s : JSString) : Bool :=
  !s.isEmpty

/-- ToBoolean. -/
def truthy : JSValue → Bool
  | .undefined => false
  | .null => false
  | .bool b => b
  | .number n => !n.isZero
  | .string s => truthyString s
  | .array _ => true
  | .object _ => true

/-- Own property of an object built by `JSON.parse`: a later duplicate key
overwrites an earlier one, so the last entry with the key is the value. -/
def lookupProp (key : JSString) : List (JSString × JSValue) → Option JSValue
  | [] => none
  | (k, v) :: rest =>
    match lookupProp key rest with
    | some w => some w
    | none => if k = key then some v else none

/-- The expression `v.role`. Reading a property of `null` or `undefined` throws a
TypeError; primitives and arrays have no `role` property, own or inherited;
objects have it when it is an own property. -/
def getRole : JSValue → Except JSError JSValue
  | .undefined => .error .TypeError
  | .null => .error .TypeError
  | .object props => .ok ((lookupProp (js "role") props).getD .undefined)
  | _ => .ok .undefined

/-- The comparison `v === s` for a string `s`. -/
def strictEqString (v : JSValue) (s : JSString) : Bool :=
  match v with
  | .string t => decide (t = s)
  | _ => false

/-! ## `JSON.parse`

The JSON grammar of ECMA-404 as `JSON.parse` applies it, in two passes that each
read their input once from left to right: code units to tokens, tokens to a value.
Whitespace is allowed around every token and nowhere else, so the two passes accept
exactly the JSON texts. -/

/-- The tokens of a JSON text. -/
inductive Token where
  | lbrace | rbrace | lbrack | rbrack | colon | comma
  | str (s : JSString)
  | num (n : JSNumber)
  | litTrue | litFalse | litNull

/-- Where the tokenizer stands inside a token. -/
inductive LexState where
  /-- Between tokens. -/
  | start
  /-- Inside `true`, `false` or `null`, with the code units still expected. -/
  | lit (expected : List Nat) (tok : Token)
  /-- Inside a string, with the code units read so far, last first. -/
  | str (acc : List Nat)
  /-- After a backslash inside a string. -/
  | esc (acc : List Nat)
  /-- Inside `\uXXXX` after `count` hexadecimal digits of value `value`. -/
  | uni (acc : List Nat) (count value : Nat)
  /-- After the minus sign of a number. -/
  | minus
  /-- After the integer part `0`. -/
  | zero (neg : Bool)
  /-- Inside an integer part that starts with a digit from 1 to 9. -/
  | int (neg : Bool) (m : Nat)
  /-- After the decimal point. -/
  | dot (neg : Bool) (m : Nat)
  /-- Inside the fraction, `fl` digits of it read. -/
  | frac (neg : Bool) (m fl : Nat)
  /-- After `e` or `E`. -/
  | expMark (neg : Bool) (m fl : Nat)
  /-- After the sign of the exponent. -/
  | expSign (neg : Bool) (m fl : Nat) (eneg : Bool)
  /-- Inside the digits of the exponent. -/
  | exp (neg : Bool) (m fl : Nat) (eneg : Bool) (e : Nat)

/-- Value of a decimal digit code unit. -/
def digitVal (c : Nat) : Option Nat :=
  if 48 ≤ c ∧ c ≤ 57 then some (c - 48) else none

/-- Value of a hexadecimal digit code unit, in either case. -/
def hexVal (c : Nat) : Option Nat :=
  if 48 ≤ c ∧ c ≤ 57 then some (c - 48)
  else if 65 ≤ c ∧ c ≤ 70 then some (c - 55)
  else if 97 ≤ c ∧ c ≤ 102 then some (c - 87)
  else none

/-- The number token for the digits `m` with `fl` of them after the point and the
exponent `e`. -/
def mkNum (neg : Bool) (m fl : Nat) (eneg : Bool) (e : Nat) : Token :=
  .num ⟨neg, m, (if eneg then -(e : Int) else (e : Int)) - (fl : Int)⟩

/-- One code unit read between tokens. -/
def lexStart (toks : List Token) (c : Nat) : Option (LexState × List Token) :=
  if c = 9 ∨ c = 10 ∨ c = 13 ∨ c = 32 then some (.start, toks)
  else if c = 123 then some (.start, .lbrace :: toks)
  else if c = 125 then some (.start, .rbrace :: toks)
  else if c = 91 then some (.start, .lbrack :: toks)
  else if c = 93 then some (.start, .rbrack :: toks)
  else if c = 58 then some (.start, .colon :: toks)
  else if c = 44 then some (.start, .comma :: toks)
  else if c = 34 then some (.str [], toks)
  else if c = 45 then some (.minus, toks)
  else if c = 48 then some (.zero false, toks)
  else if c = 116 then some (.lit (js "rue") .litTrue, toks)
  else if c = 102 then some (.lit (js "alse") .litFalse, toks)
  else if c = 110 then some (.lit (js "ull") .litNull, toks)
  else match digitVal c with
    | some d => some (.int false d, toks)
    | none => none

/-- One code unit read after a backslash inside a string. -/
def lexEscape (acc : List Nat) (c : Nat) : Option LexState :=
  if c = 34 then some (.str (34 :: acc))
  else if c = 92 then some (.str (92 :: acc))
  else if c = 47 then some (.str (47 :: acc))
  else if c = 98 then some (.str (8 :: acc))
  else if c = 102 then some (.str (12 :: acc))
  else if c = 110 then some (.str (10 :: acc))
  else if c = 114 then some (.str (13 :: acc))
  else if c = 116 then some (.str (9 :: acc))
  else if c = 117 then some (.uni acc 0 0)
  else none

/-- One code unit read by the tokenizer. The tokens are kept last first. -/
def lexStep (st : LexState) (toks : List Token) (c : Nat) : Option (LexState × List Token) :=
  match st with
  | .start => lexStart toks c
  | .lit [] _ => none
  | .lit (x :: rest) tok =>
    if c = x then
      (if rest.isEmpty then some (.start, tok :: toks) else some (.lit rest tok, toks))
    else none
  | .str acc =>
    if c = 34 then some (.start, .str acc.reverse :: toks)
    else if c = 92 then some (.esc acc, toks)
    else if c < 32 then none
    else some (.str (c :: acc), toks)
  | .esc acc => (lexEscape acc c).map (fun s => (s, toks))
  | .uni acc count value =>
    match hexVal c with
    | some d =>
      if count = 3 then some (.str ((value * 16 + d) :: acc), toks)
      else some (.uni acc (count + 1) (value * 16 + d), toks)
    | none => none
  | .minus =>
    if c = 48 then some (.zero true, toks)
    else match digitVal c with
      | some d => some (.int true d, toks)
      | none => none
  | .zero neg =>
    if c = 46 then some (.dot neg 0, toks)
    else if c = 101 ∨ c = 69 then some (.expMark neg 0 0, toks)
    else lexStart (mkNum neg 0 0 false 0 :: toks) c
  | .int neg m =>
    match digitVal c with
    | some d => some (.int neg (m * 10 + d), toks)
    | none =>
      if c = 46 then some (.dot neg m, toks)
      else if c = 101 ∨ c = 69 then some (.expMark neg m 0, toks)
      else lexStart (mkNum neg m 0 false 0 :: toks) c
  | .dot neg m =>
    match digitVal c with
    | some d => some (.frac neg (m * 10 + d) 1, toks)
    | none => none
  | .frac neg m fl =>
    match digitVal c with
    | some d => some (.frac neg (m * 10 + d) (fl + 1), toks)
    | none =>
      if c = 101 ∨ c = 69 then some (.expMark neg m fl, toks)
      else lexStart (mkNum neg m fl false 0 :: toks) c
  | .expMark neg m fl =>
    if c = 43 then some (.expSign neg m fl false, toks)
    else if c = 45 then some (.expSign neg m fl true, toks)
    else match digitVal c with
      | some d => some (.exp neg m fl false d, toks)
      | none => none
  | .expSign neg m fl eneg =>
    match digitVal c with
    | some d => some (.exp neg m fl eneg d, toks)
    | none => none
  | .exp neg m fl eneg e =>
    match digitVal c with
    | some d => some (.exp neg m fl eneg (e * 10 + d), toks)
    | none => lexStart (mkNum neg m fl eneg e :: toks) c

/-- End of the text: a number may end there, a string or a keyword may not. -/
def lexFinish (st : LexState) (toks : List Token) : Option (List Token) :=
  match st with
  | .start => some toks.reverse
  | .zero neg => some (mkNum neg 0 0 false 0 :: toks).reverse
  | .int neg m => some (mkNum neg m 0 false 0 :: toks).reverse
  | .frac neg m fl => some (mkNum neg m fl false 0 :: toks).reverse
  | .exp neg m fl eneg e => some (mkNum neg m fl eneg e :: toks).reverse
  | _ => none

/-- The tokens of a text, or `none` when it is not a sequence of JSON tokens. -/
def lexAll : LexState → List Token → List Nat → Option (List Token)
  | st, toks, [] => lexFinish st toks
  | st, toks, c :: cs =>
    match lexStep st toks c with
    | some (st2, toks2) => lexAll st2 toks2 cs
    | none => none

/-- An array or object that is still open: what it holds so far, last first, and
for an object the key whose value is being read. -/
inductive Frame where
  | arr (items : List JSValue)
  | obj (props : List (JSString × JSValue)) (key : JSString)

/-- What the parser expects next; `stack` holds the open containers, innermost
first. -/
inductive PState where
  /-- A value. -/
  | value (stack : List Frame)
  /-- Just after `[`: a value or `]`. -/
  | arrStart (stack : List Frame)
  /-- After an element: `,` or `]`. -/
  | arrNext (items : List JSValue) (stack : List Frame)
  /-- Just after the opening brace: a key or the closing brace. -/
  | objStart (stack : List Frame)
  /-- After `,` in an object: a key. -/
  | key (props : List (JSString × JSValue)) (stack : List Frame)
  /-- After a key: `:`. -/
  | colon (props : List (JSString × JSValue)) (key : JSString) (stack : List Frame)
  /-- After a member: `,` or the closing brace. -/
  | objNext (props : List (JSString × JSValue)) (stack : List Frame)
  /-- The text's value is complete. -/
  | done (v : JSValue)

/-- A value is complete: it goes into the innermost open container, or is the
value of the text. -/
def complete (v : JSValue) : List Frame → PState
  | [] => .done v
  | .arr items :: stack => .arrNext (v :: items) stack
  | .obj props key :: stack => .objNext ((key, v) :: props) stack

/-- A token read where a value is expected. -/
def startValue (tok : Token) (stack : List Frame) : Option PState :=
  match tok with
  | .str s => some (complete (.string s) stack)
  | .num n => some (complete (.number n) stack)
  | .litTrue => some (complete (.bool true) stack)
  | .litFalse => some (complete (.bool false) stack)
  | .litNull => some (complete .null stack)
  | .lbrack => some (.arrStart stack)
  | .lbrace => some (.objStart stack)
  | _ => none

/-- One token read by the parser. -/
def parseStep (st : PState) (tok : Token) : Option PState :=
  match st, tok with
  | .value stack, tok => startValue tok stack
  | .arrStart stack, .rbrack => some (complete (.array []) stack)
  | .arrStart stack, tok => startValue tok (.arr [] :: stack)
  | .arrNext items stack, .comma => some (.value (.arr items :: stack))
  | .arrNext items stack, .rbrack => some (complete (.array items.reverse) stack)
  | .objStart stack, .rbrace => some (complete (.object []) stack)
  | .objStart stack, .str k => some (.colon [] k stack)
  | .key props stack, .str k => some (.colon props k stack)
  | .colon props k stack, .colon => some (.value (.obj props k :: stack))
  | .objNext props stack, .comma => some (.key props stack)
  | .objNext props stack, .rbrace => some (complete (.object props.reverse) stack)
  | _, _ => none

/-- The value of a token sequence, or `none` when it is not one JSON value. -/
def parseAll : PState → List Token → Option JSValue
  | .done v, [] => some v
  | _, [] => none
  | st, tok :: toks =>
    match parseStep st tok with
    | some st2 => parseAll st2 toks
    | none => none

/-- The call `JSON.parse(text)` with no reviver: the value of a JSON text, a
SyntaxError for any other string. -/
def JSON.parse (text : JSString) : Except JSError JSValue :=
  match lexAll .start [] text with
  | none => .error .SyntaxError
  | some toks =>
    match parseAll (.value []) toks with
    | none => .error .SyntaxError
    | some v => .ok v

/-! ## The route table and the guard -/

/-- The `meta` of a route record and of the location resolved from it. The table
only ever sets `requiresAuth` to a boolean and `role` to a string; a field that is
not set reads as `undefined`, here `none`. -/
structure RouteMeta where
  requiresAuth : Option Bool := none
  role : Option JSString := none
  deriving DecidableEq

/-- A record of the `routes` array; the component of a record plays no part in
the guard and is left out. -/
structure RouteRecord where
  path : JSString
  name : Option JSString := none
  redirect : Option JSString := none
  meta : RouteMeta := {}
  deriving DecidableEq

/-- The `routes` array given to `createRouter`. -/
def routes : List RouteRecord :=
  [ { path := js "/", redirect := some (js "/login") },
    { path := js "/login", name := some (js "Login") },
    { path := js "/register", name := some (js "Register") },
    -- Admin Routes
    { path := js "/admin/dashboard", name := some (js "AdminDashboard"),
      meta := { requiresAuth := some true, role := some (js "admin") } },
    { path := js "/admin/parking-lots", name := some (js "AdminParkingLots"),
      meta := { requiresAuth := some true, role := some (js "admin") } },
    { path := js "/admin/parking-lots/:id", name := some (js "AdminParkingLotDetails"),
      meta := { requiresAuth := some true, role := some (js "admin") } },
    { path := js "/admin/users", name := some (js "AdminUsers"),
      meta := { requiresAuth := some true, role := some (js "admin") } },
    { path := js "/admin/charts", name := some (js "AdminCharts"),
      meta := { requiresAuth := some true, role := some (js "admin") } },
    -- User Routes
    { path := js "/user/dashboard", name := some (js "UserDashboard"),
      meta := { requiresAuth := some true, role := some (js "user") } },
    { path := js "/user/book", name := some (js "UserBooking"),
      meta := { requiresAuth := some true, role := some (js "user") } },
    { path := js "/user/history", name := some (js "UserHistory"),
      meta := { requiresAuth := some true, role := some (js "user") } } ]

/-- The target location `to` of a navigation, as far as the guard reads it. -/
structure RouteLocation where
  path : JSString
  meta : RouteMeta := {}
  deriving DecidableEq

/-- One call of the guard's `next` callback: `next()` or `next(path)`. -/
inductive NextCall where
  | proceed
  | redirect (path : JSString)
  deriving DecidableEq

/-- The contents of `localStorage`: keys with their values. -/
abbrev Storage := List (JSString × JSString)

/-- The call `localStorage.getItem(key)`: the stored string, or `null`. -/
def getItem (storage : Storage) (key : JSString) : Option JSString :=
  (storage.find? (fun kv => decide (kv.1 = key))).map (fun kv => kv.2)

/-- ToBoolean of `to.meta.requiresAuth`. -/
def truthyRequiresAuth (m : RouteMeta) : Bool :=
  m.requiresAuth.getD false

/-- ToBoolean of `to.meta.role`. -/
def truthyRole (m : RouteMeta) : Bool :=
  match m.role with
  | some r => truthyString r
  | none => false

/-- The first lines of the guard:
`const userStr = localStorage.getItem('user')` and
`const user = userStr ? JSON.parse(userStr) : null`. -/
def readUser (localStorage : Storage) : Except JSError JSValue :=
  match getItem localStorage (js "user") with
  | some userStr => if truthyString userStr then JSON.parse userStr else .ok .null
  | none => .ok .null

/-- The condition `to.meta.role && to.meta.role !== user.role`; `user.role` is
read only when `to.meta.role` is truthy. -/
def roleMismatch (m : RouteMeta) (user : JSValue) : Except JSError Bool :=
  match m.role with
  | some r =>
    if truthyString r then
      match getRole user with
      | .ok role => .ok (!strictEqString role r)
      | .error e => .error e
    else .ok false
  | none => .ok false

/-- The statement `if (user.role === 'admin') next('/admin/dashboard') else
next('/user/dashboard')`, which the guard has twice. -/
def nextDashboard (user : JSValue) : Except JSError (List NextCall) :=
  match getRole user with
  | .ok role =>
    if strictEqString role (js "admin") then .ok [.redirect (js "/admin/dashboard")]
    else .ok [.redirect (js "/user/dashboard")]
  | .error e => .error e

/-- The guard `router.beforeEach((to, from, next) => ...)`; `to_` stands for `to`, `from` is not read.
The result is the calls of `next` it made, in order, or the exception it threw. -/
def beforeEach (localStorage : Storage) (to_ : RouteLocation) :
    Except JSError (List NextCall) :=
  match readUser localStorage with
  | .error e => .error e
  | .ok user =>
    if truthyRequiresAuth to_.meta then
      if !truthy user then .ok [.redirect (js "/login")]
      else
        match roleMismatch to_.meta user with
        | .error e => .error e
        | .ok true =>
          -- Redirect to appropriate dashboard if role mismatch
          nextDashboard user
        | .ok false => .ok [.proceed]
    else
      -- If already logged in and trying to access login/register, redirect to dashboard
      if (decide (to_.path = js "/login") || decide (to_.path = js "/register")) && truthy user then
        nextDashboard user
      else .ok [.proceed]

/-! ## Targets of the route table

The guard is handed the location that vue-router resolved, whose `meta` is that
of the matched record and whose `path` is the requested path. -/

/-- Segments of a path between its slashes. -/
def splitSlash : List Nat → List (List Nat)
  | [] => [[]]
  | c :: cs =>
    if c = 47 then [] :: splitSlash cs
    else
      match splitSlash cs with
      | seg :: rest => (c :: seg) :: rest
      | [] => [[c]]

/-- Lower case of an ASCII letter, other code units unchanged. -/
def lowerAscii (c : Nat) : Nat :=
  if 65 ≤ c ∧ c ≤ 90 then c + 32 else c

/-- A segment of a record's path against a segment of a requested path: a
parameter such as `:id` takes any non-empty segment, any other segment is
compared without regard to ASCII case. -/
def matchSegment (pat seg : List Nat) : Bool :=
  match pat with
  | 58 :: _ => !seg.isEmpty
  | _ => decide (pat.map lowerAscii = seg.map lowerAscii)

/-- Segments of a record's path against those of a requested path; the requested
path may end in one more slash. -/
def matchSegments : List (List Nat) → List (List Nat) → Bool
  | [], [] => true
  | [], [[]] => true
  | p :: ps, s :: ss => matchSegment p s && matchSegments ps ss
  | _, _ => false

/-- The matching of vue-router, the library the table is handed to: with the
default options of `createRouter` (`sensitive: false`, `strict: false`) a
record's path matches a requested path segment by segment, ignoring ASCII case
and one trailing slash. -/
def matchesPath (pattern path : JSString) : Bool :=
  matchSegments (splitSlash pattern) (splitSlash path)

/-- The location `to_` is a target of the record `r`: the requested path matches
the record's path and the location carries the record's `meta`. -/
def resolvesTo (r : RouteRecord) (to_ : RouteLocation) : Prop :=
  matchesPath r.path to_.path = true ∧ to_.meta = r.meta

/-! ## Sample inputs -/

/-- A storage whose only item is `user`, holding the given text. -/
def storageWithUser (text : String) : Storage :=
  [(js "user", js text)]

/-- The storage after an administrator logged in. -/
def adminStorage : Storage :=
  storageWithUser "\x7b\"id\":1,\"role\":\"admin\"\x7d"

/-- The storage after an ordinary user logged in. -/
def userStorage : Storage :=
  storageWithUser "\x7b\"id\":2,\"role\":\"user\"\x7d"

/-- A storage whose `user` item was cut short. -/
def brokenStorage : Storage :=
  storageWithUser "\x7b\"id\":2,\"role\":"

/-- The value `JSON.parse` gives for the item of `adminStorage`. -/
def adminUser : JSValue :=
  .object [(js "id", .number ⟨false, 1, 0⟩), (js "role", .string (js "admin"))]

/-- The value `JSON.parse` gives for the item of `userStorage`. -/
def userUser : JSValue :=
  .object [(js "id", .number ⟨false, 2, 0⟩), (js "role", .string (js "user"))]

/-- The storage of a session stored without a `role`. -/
def guestStorage : Storage :=
  storageWithUser "\x7b\"id\":3\x7d"

/-- The value `JSON.parse` gives for the item of `guestStorage`. -/
def guestUser : JSValue :=
  .object [(js "id", .number ⟨false, 3, 0⟩)]

/-- A target resolved from the record with the given path and meta. -/
def target (path : String) (requiresAuth : Option Bool) (role : Option String) :
    RouteLocation :=
  { path := js path, meta := { requiresAuth := requiresAuth, role := role.map js } }

/-! ## Properties of the guard -/

/-- A value whose `role` is a string is an object, hence truthy. -/
theorem truthy_of_getRole_string {user : JSValue} {r : JSString}
    (h : getRole user = .ok (.string r)) : truthy user = true := by
  cases user <;> simp [getRole, truthy] at h ⊢

/-- Reading `role` from a truthy value does not throw. -/
theorem getRole_ok_of_truthy {user : JSValue} (h : truthy user = true) :
    ∃ role, getRole user = .ok role := by
  cases user <;> simp [getRole, truthy] at h ⊢

/-- The dashboard statement makes exactly one call of `next` for a truthy user. -/
theorem nextDashboard_of_truthy {user : JSValue} (h : truthy user = true) :
    nextDashboard user = .ok [.redirect (js "/admin/dashboard")] ∨
      nextDashboard user = .ok [.redirect (js "/user/dashboard")] := by
  obtain ⟨role, hr⟩ := getRole_ok_of_truthy h
  unfold nextDashboard
  rw [hr]
  by_cases hc : strictEqString role (js "admin") = true <;> simp [hc]

/-- C1: for every target whose meta has `requiresAuth: true`, whatever its role and
path, when no session exists the guard calls `next('/login')` and nothing else:
when the stored `user` item is absent, when it is the empty string, and whenever
the value read for `user` is falsy. -/
theorem C1_no_session_redirects_to_login (to_ : RouteLocation)
    (hauth : to_.meta.requiresAuth = some true) :
    (∀ ls : Storage, getItem ls (js "user") = none →
        beforeEach ls to_ = .ok [.redirect (js "/login")]) ∧
    (∀ ls : Storage, getItem ls (js "user") = some [] →
        beforeEach ls to_ = .ok [.redirect (js "/login")]) ∧
    (∀ (ls : Storage) (user : JSValue), readUser ls = .ok user → truthy user = false →
        beforeEach ls to_ = .ok [.redirect (js "/login")]) := by
  have key : ∀ (ls : Storage) (user : JSValue), readUser ls = .ok user →
      truthy user = false → beforeEach ls to_ = .ok [.redirect (js "/login")] := by
    intro ls user hread hfalsy
    simp [beforeEach, hread, truthyRequiresAuth, hauth, hfalsy]
  refine ⟨fun ls h => key ls .null ?_ rfl, fun ls h => key ls .null ?_ rfl, key⟩
  · simp [readUser, h]
  · simp [readUser, h, truthyString]

/-- C1 at the scenario of the specification: `/admin/dashboard` with an empty
storage. -/
theorem C1_no_session_redirects_to_login_witness :
    beforeEach [] { path := js "/admin/dashboard",
                    meta := { requiresAuth := some true, role := some (js "admin") } }
      = .ok [.redirect (js "/login")] :=
  (C1_no_session_redirects_to_login _ rfl).1 [] rfl

/-- The guard on a protected target whose required role is a non-empty string,
for a user whose `role` is another string: the dashboard statement runs. -/
theorem beforeEach_role_mismatch (to_ : RouteLocation) (q ρ : JSString)
    (hauth : to_.meta.requiresAuth = some true) (hq : to_.meta.role = some q)
    (hne : q ≠ []) (ls : Storage) (user : JSValue) (hread : readUser ls = .ok user)
    (hrole : getRole user = .ok (.string ρ)) (hdiff : ρ ≠ q) :
    beforeEach ls to_ =
      if ρ = js "admin" then .ok [.redirect (js "/admin/dashboard")]
      else .ok [.redirect (js "/user/dashboard")] := by
  have htruthy := truthy_of_getRole_string hrole
  have hq2 : truthyString q = true := by
    cases q with
    | nil => exact absurd rfl hne
    | cons a t => rfl
  simp [beforeEach, hread, truthyRequiresAuth, hauth, htruthy, roleMismatch, hq, hq2,
    hrole, strictEqString, hdiff, nextDashboard]

/-- The protected records of the table: each requires `'admin'` and matches no
requested path `'/user/dashboard'`, or requires `'user'` and matches no requested
path `'/admin/dashboard'`. -/
theorem routes_protected (r : RouteRecord) (hr : r ∈ routes)
    (hauth : r.meta.requiresAuth = some true) :
    (r.meta.role = some (js "admin") ∧ matchesPath r.path (js "/user/dashboard") = false) ∨
    (r.meta.role = some (js "user") ∧ matchesPath r.path (js "/admin/dashboard") = false) := by
  simp only [routes, List.mem_cons, List.mem_singleton, List.not_mem_nil, or_false] at hr
  rcases hr with rfl | rfl | rfl | rfl | rfl | rfl | rfl | rfl | rfl | rfl | rfl
  · exact absurd hauth (by decide)
  · exact absurd hauth (by decide)
  · exact absurd hauth (by decide)
  · exact Or.inl (by decide)
  · exact Or.inl (by decide)
  · exact Or.inl (by decide)
  · exact Or.inl (by decide)
  · exact Or.inl (by decide)
  · exact Or.inr (by decide)
  · exact Or.inr (by decide)
  · exact Or.inr (by decide)

/-- C2: for every protected record of the route table, every target resolved from
it, and every session whose role is `'admin'` or `'user'` and differs from the
record's role, the guard calls `next` once with the landing path of the session's
role (`'/admin/dashboard'` for admin, `'/user/dashboard'` for user), and the path
it redirects to is not the path that was requested. -/
theorem C2_role_mismatch_redirects_to_own_landing (r : RouteRecord) (hr : r ∈ routes)
    (hauth : r.meta.requiresAuth = some true) (to_ : RouteLocation)
    (hto : resolvesTo r to_) (ls : Storage) (user : JSValue) (ρ : JSString)
    (hread : readUser ls = .ok user) (hrole : getRole user = .ok (.string ρ))
    (hρ : ρ = js "admin" ∨ ρ = js "user") (hdiff : r.meta.role ≠ some ρ) :
    (ρ = js "admin" → beforeEach ls to_ = .ok [.redirect (js "/admin/dashboard")]) ∧
    (ρ = js "user" → beforeEach ls to_ = .ok [.redirect (js "/user/dashboard")]) ∧
    (∀ p, beforeEach ls to_ = .ok [.redirect p] → p ≠ to_.path) := by
  obtain ⟨hmatch, hmeta⟩ := hto
  have hau : js "user" ≠ js "admin" := by decide
  have hauth2 : to_.meta.requiresAuth = some true := by rw [hmeta]; exact hauth
  rcases routes_protected r hr hauth with ⟨hq, hno⟩ | ⟨hq, hno⟩
  · -- an admin record: the session's role is 'user'
    have hρu : ρ = js "user" := by
      rcases hρ with h | h
      · exact absurd (by rw [hq, h]) hdiff
      · exact h
    subst hρu
    have hgo := beforeEach_role_mismatch to_ (js "admin") (js "user") hauth2
      (by rw [hmeta]; exact hq) (by decide) ls user hread hrole hau
    rw [if_neg hau] at hgo
    refine ⟨fun h => absurd h hau, fun _ => hgo, ?_⟩
    intro p hp heq
    rw [hgo] at hp
    injection hp with hp; injection hp with hp; injection hp with hp
    rw [← heq, ← hp, hno] at hmatch
    exact Bool.noConfusion hmatch
  · -- a user record: the session's role is 'admin'
    have hρa : ρ = js "admin" := by
      rcases hρ with h | h
      · exact h
      · exact absurd (by rw [hq, h]) hdiff
    subst hρa
    have hgo := beforeEach_role_mismatch to_ (js "user") (js "admin") hauth2
      (by rw [hmeta]; exact hq) (by decide) ls user hread hrole (Ne.symm hau)
    rw [if_pos rfl] at hgo
    refine ⟨fun _ => hgo, fun h => absurd h.symm hau, ?_⟩
    intro p hp heq
    rw [hgo] at hp
    injection hp with hp; injection hp with hp; injection hp with hp
    rw [← heq, ← hp, hno] at hmatch
    exact Bool.noConfusion hmatch

/-- C2 at a target of the record `/admin/parking-lots/:id` with a user session:
the guard redirects to `/user/dashboard`, which is not the requested path. -/
theorem C2_role_mismatch_redirects_to_own_landing_witness :
    beforeEach userStorage (target "/admin/parking-lots/7" (some true) (some "admin"))
        = .ok [.redirect (js "/user/dashboard")] ∧
      ∀ p, beforeEach userStorage (target "/admin/parking-lots/7" (some true) (some "admin"))
        = .ok [.redirect p] → p ≠ js "/admin/parking-lots/7" :=
  have h := C2_role_mismatch_redirects_to_own_landing
    { path := js "/admin/parking-lots/:id", name := some (js "AdminParkingLotDetails"),
      meta := { requiresAuth := some true, role := some (js "admin") } }
    (by decide) rfl (target "/admin/parking-lots/7" (some true) (some "admin"))
    ⟨by decide, rfl⟩ userStorage userUser (js "user") rfl rfl (Or.inr rfl) (by decide)
  ⟨h.2.1 rfl, h.2.2⟩

/-- C3: for every target with `requiresAuth: true` and a required role `r`, and
every session whose `role` is the string `r`, the guard calls `next()` once and
nothing else. -/
theorem C3_matching_role_is_allowed (to_ : RouteLocation) (r : JSString)
    (hauth : to_.meta.requiresAuth = some true) (hq : to_.meta.role = some r)
    (ls : Storage) (user : JSValue) (hread : readUser ls = .ok user)
    (hrole : getRole user = .ok (.string r)) :
    beforeEach ls to_ = .ok [.proceed] := by
  have htruthy := truthy_of_getRole_string hrole
  by_cases hr : truthyString r = true <;>
    simp [beforeEach, hread, truthyRequiresAuth, hauth, htruthy, roleMismatch, hq, hr,
      hrole, strictEqString]

/-- C3 at the scenario of the specification: `/user/book` with a user session. -/
theorem C3_matching_role_is_allowed_witness :
    beforeEach userStorage (target "/user/book" (some true) (some "user")) = .ok [.proceed] :=
  C3_matching_role_is_allowed (target "/user/book" (some true) (some "user")) (js "user")
    rfl rfl userStorage userUser rfl rfl

/-- C4: for every target with `requiresAuth: true` and a required role `r` (a
non-empty string, the empty one being no requirement), if the guard calls
`next()` then a session exists and its `role` is exactly the string `r`. -/
theorem C4_allowed_only_with_matching_role (to_ : RouteLocation) (r : JSString)
    (hauth : to_.meta.requiresAuth = some true) (hq : to_.meta.role = some r)
    (hne : r ≠ []) (ls : Storage) (calls : List NextCall)
    (hrun : beforeEach ls to_ = .ok calls) (hallow : NextCall.proceed ∈ calls) :
    ∃ user, readUser ls = .ok user ∧ truthy user = true ∧
      getRole user = .ok (.string r) := by
  have hr : truthyString r = true := by
    cases r with
    | nil => exact absurd rfl hne
    | cons a t => rfl
  cases hread : readUser ls with
  | error e => simp [beforeEach, hread] at hrun
  | ok user =>
    refine ⟨user, rfl, ?_⟩
    cases htruthy : truthy user with
    | false =>
      simp [beforeEach, hread, truthyRequiresAuth, hauth, htruthy] at hrun
      subst hrun
      simp at hallow
    | true =>
      refine ⟨rfl, ?_⟩
      obtain ⟨role, hrole⟩ := getRole_ok_of_truthy htruthy
      rw [hrole]
      cases hs : strictEqString role r with
      | true =>
        cases role <;> simp [strictEqString] at hs
        rw [hs]
      | false =>
        rcases nextDashboard_of_truthy htruthy with hd | hd <;>
          simp [beforeEach, hread, truthyRequiresAuth, hauth, htruthy, roleMismatch, hq, hr,
            hrole, hs, hd] at hrun <;>
          subst hrun <;> simp at hallow

/-- C4 at `/user/book` with a user session: the guard allows, and the session's
role is `'user'`. -/
theorem C4_allowed_only_with_matching_role_witness :
    ∃ user, readUser userStorage = .ok user ∧ truthy user = true ∧
      getRole user = .ok (.string (js "user")) :=
  C4_allowed_only_with_matching_role (target "/user/book" (some true) (some "user"))
    (js "user") rfl rfl (by decide) userStorage [.proceed] rfl (by decide)

/-- C5, as stated, fails: `/login` has no access requirement, yet with an
administrator's session the guard does not call `next()` but redirects to
`/admin/dashboard`. -/
theorem C5_counterexample :
    truthyRequiresAuth (target "/login" none none).meta = false ∧
      readUser adminStorage = .ok adminUser ∧
      beforeEach adminStorage (target "/login" none none)
        = .ok [.redirect (js "/admin/dashboard")] ∧
      beforeEach adminStorage (target "/login" none none) ≠ .ok [.proceed] :=
  ⟨rfl, rfl, rfl, by
    intro h
    have h2 : Except.ok [NextCall.redirect (js "/admin/dashboard")]
        = (Except.ok [NextCall.proceed] : Except JSError (List NextCall)) := h
    injection h2 with h2
    injection h2 with h2
    exact NextCall.noConfusion h2⟩

/-- C5, amended: a target whose meta does not require authentication is allowed
for every session state, present or absent, when its path is neither `'/login'`
nor `'/register'`; and it is allowed whatever its path when no session exists. -/
theorem C5_open_route_allowed (to_ : RouteLocation)
    (hopen : truthyRequiresAuth to_.meta = false) (ls : Storage) (user : JSValue)
    (hread : readUser ls = .ok user)
    (hcase : (to_.path ≠ js "/login" ∧ to_.path ≠ js "/register") ∨ truthy user = false) :
    beforeEach ls to_ = .ok [.proceed] := by
  rcases hcase with ⟨h1, h2⟩ | h
  · simp [beforeEach, hread, hopen, h1, h2]
  · simp [beforeEach, hread, hopen, h]

/-- C5, amended, at the root path with an administrator's session and at `/login`
with an empty storage. -/
theorem C5_open_route_allowed_witness :
    beforeEach adminStorage (target "/" none none) = .ok [.proceed] ∧
      beforeEach [] (target "/login" none none) = .ok [.proceed] :=
  ⟨C5_open_route_allowed (target "/" none none) rfl adminStorage adminUser rfl
      (Or.inl (by decide)),
    C5_open_route_allowed (target "/login" none none) rfl [] .null rfl (Or.inr rfl)⟩

/-- C6, as stated, fails: with a stored `user` item that is not JSON the guard
does not redirect a protected target to `/login`; `JSON.parse` throws a
SyntaxError, the guard does not catch it and `next` is never called. -/
theorem C6_counterexample :
    getItem brokenStorage (js "user") = some (js "\x7b\"id\":2,\"role\":") ∧
      JSON.parse (js "\x7b\"id\":2,\"role\":") = .error .SyntaxError ∧
      beforeEach brokenStorage (target "/admin/dashboard" (some true) (some "admin"))
        = .error .SyntaxError ∧
      beforeEach brokenStorage (target "/admin/dashboard" (some true) (some "admin"))
        ≠ .ok [.redirect (js "/login")] :=
  ⟨rfl, rfl, rfl, by
    intro h
    have h2 : (Except.error JSError.SyntaxError : Except JSError (List NextCall))
        = Except.ok [NextCall.redirect (js "/login")] := h
    exact Except.noConfusion h2⟩

/-- C6, amended: when the stored `user` item is a non-empty string that
`JSON.parse` rejects, the guard ends with the exception `JSON.parse` threw, for
every target, protected or not, and so makes no call of `next`. -/
theorem C6_unparseable_session_throws (ls : Storage) (userStr : JSString) (e : JSError)
    (to_ : RouteLocation) (hitem : getItem ls (js "user") = some userStr)
    (hne : userStr ≠ []) (hbad : JSON.parse userStr = .error e) :
    beforeEach ls to_ = .error e := by
  have hs : truthyString userStr = true := by
    cases userStr with
    | nil => exact absurd rfl hne
    | cons a t => rfl
  simp [beforeEach, readUser, hitem, hs, hbad]

/-- C6, amended, at a stored item that was cut short, for a target without access
requirement. -/
theorem C6_unparseable_session_throws_witness :
    beforeEach brokenStorage (target "/register" none none) = .error .SyntaxError :=
  C6_unparseable_session_throws brokenStorage (js "\x7b\"id\":2,\"role\":") .SyntaxError
    (target "/register" none none) rfl (by decide) rfl

/-- C7: for a target that does not require authentication and whose path is
exactly `'/login'` or `'/register'`, and every existing session, the guard calls
`next` once with `'/admin/dashboard'` when the session's role is `'admin'` and
with `'/user/dashboard'` when it is `'user'`. -/
theorem C7_entry_route_redirects_logged_in (to_ : RouteLocation)
    (hopen : truthyRequiresAuth to_.meta = false)
    (hpath : to_.path = js "/login" ∨ to_.path = js "/register")
    (ls : Storage) (user : JSValue) (hread : readUser ls = .ok user)
    (hexists : truthy user = true) :
    (getRole user = .ok (.string (js "admin")) →
        beforeEach ls to_ = .ok [.redirect (js "/admin/dashboard")]) ∧
    (getRole user = .ok (.string (js "user")) →
        beforeEach ls to_ = .ok [.redirect (js "/user/dashboard")]) := by
  have hau : js "user" ≠ js "admin" := by decide
  have hcond : (decide (to_.path = js "/login") || decide (to_.path = js "/register")) = true := by
    rcases hpath with h | h <;> simp [h]
  constructor <;> intro hrole <;>
    simp [beforeEach, hread, hopen, hcond, hexists, nextDashboard, hrole, strictEqString, hau]

/-- C7 at the scenario of the specification, `/login` with an administrator's
session, and at `/register` with a user's session. -/
theorem C7_entry_route_redirects_logged_in_witness :
    beforeEach adminStorage (target "/login" none none)
        = .ok [.redirect (js "/admin/dashboard")] ∧
      beforeEach userStorage (target "/register" none none)
        = .ok [.redirect (js "/user/dashboard")] :=
  ⟨(C7_entry_route_redirects_logged_in (target "/login" none none) rfl (Or.inl rfl)
      adminStorage adminUser rfl rfl).1 rfl,
    (C7_entry_route_redirects_logged_in (target "/register" none none) rfl (Or.inr rfl)
      userStorage userUser rfl rfl).2 rfl⟩

/-- C8: for a target that does not require authentication and whose path is
`'/login'` or `'/register'`, when no session exists (the value read for `user`
is falsy, as it is when the item is absent or empty) the guard calls `next()`
once and nothing else. -/
theorem C8_entry_route_allowed_without_session (to_ : RouteLocation)
    (hopen : truthyRequiresAuth to_.meta = false)
    (hpath : to_.path = js "/login" ∨ to_.path = js "/register")
    (ls : Storage) (user : JSValue) (hread : readUser ls = .ok user)
    (hnone : truthy user = false) :
    beforeEach ls to_ = .ok [.proceed] := by
  rcases hpath with h | h <;> simp [beforeEach, hread, hopen, hnone, h]

/-- C8 at `/login` with an empty storage and at `/register` with an empty `user`
item. -/
theorem C8_entry_route_allowed_without_session_witness :
    beforeEach [] (target "/login" none none) = .ok [.proceed] ∧
      beforeEach (storageWithUser "") (target "/register" none none) = .ok [.proceed] :=
  ⟨C8_entry_route_allowed_without_session (target "/login" none none) rfl (Or.inl rfl)
      [] .null rfl rfl,
    C8_entry_route_allowed_without_session (target "/register" none none) rfl (Or.inr rfl)
      (storageWithUser "") .null rfl rfl⟩

/-- C9: for every target, whatever its meta and path, and every storage whose
`user` item is absent, empty or parsed successfully, the guard returns normally
after exactly one call of `next`, which is `next()` or `next(path)` for a single
path. -/
theorem C9_exactly_one_decision (to_ : RouteLocation) (ls : Storage) (user : JSValue)
    (hread : readUser ls = .ok user) :
    ∃ call : NextCall, beforeEach ls to_ = .ok [call] ∧
      (call = .proceed ∨ ∃ path, call = .redirect path) := by
  have hshape : ∀ call : NextCall, call = .proceed ∨ ∃ path, call = .redirect path := by
    intro call
    cases call with
    | proceed => exact Or.inl rfl
    | redirect path => exact Or.inr ⟨path, rfl⟩
  suffices h : ∃ call : NextCall, beforeEach ls to_ = .ok [call] by
    obtain ⟨call, hc⟩ := h
    exact ⟨call, hc, hshape call⟩
  cases htruthy : truthy user with
  | false =>
    by_cases hauth : truthyRequiresAuth to_.meta = true
    · exact ⟨_, by simp [beforeEach, hread, hauth, htruthy]; rfl⟩
    · exact ⟨.proceed, by simp [beforeEach, hread, hauth, htruthy]⟩
  | true =>
    obtain ⟨role, hrole⟩ := getRole_ok_of_truthy htruthy
    have hdash : ∃ call : NextCall, nextDashboard user = .ok [call] := by
      rcases nextDashboard_of_truthy htruthy with hd | hd
      · exact ⟨_, hd⟩
      · exact ⟨_, hd⟩
    obtain ⟨dcall, hd⟩ := hdash
    have hmis : ∃ b, roleMismatch to_.meta user = .ok b := by
      unfold roleMismatch
      cases to_.meta.role with
      | none => exact ⟨false, rfl⟩
      | some r =>
        by_cases hr : truthyString r = true
        · exact ⟨!strictEqString role r, by simp [hr, hrole]⟩
        · exact ⟨false, by simp [hr]⟩
    obtain ⟨b, hb⟩ := hmis
    by_cases hauth : truthyRequiresAuth to_.meta = true
    · cases b with
      | true => exact ⟨dcall, by simp [beforeEach, hread, hauth, htruthy, hb, hd]⟩
      | false => exact ⟨.proceed, by simp [beforeEach, hread, hauth, htruthy, hb]⟩
    · by_cases hcond : (decide (to_.path = js "/login") || decide (to_.path = js "/register")) = true
      · exact ⟨dcall, by
          simp only [beforeEach, hread, hauth, htruthy, hcond, hd]
          simp⟩
      · exact ⟨.proceed, by
          simp only [beforeEach, hread, hauth, htruthy, hcond]
          simp⟩

/-- C9 at `/admin/users` with a user's session: one call of `next`. -/
theorem C9_exactly_one_decision_witness :
    ∃ call : NextCall,
      beforeEach userStorage (target "/admin/users" (some true) (some "admin")) = .ok [call] ∧
      (call = .proceed ∨ ∃ path, call = .redirect path) :=
  C9_exactly_one_decision (target "/admin/users" (some true) (some "admin")) userStorage
    userUser rfl

/-- C10: for every target with `requiresAuth: true` whose `meta.role` is absent or
the empty string, and every existing session whatever its role, the guard calls
`next()` once and nothing else. -/
theorem C10_no_required_role_allows_any_session (to_ : RouteLocation)
    (hauth : to_.meta.requiresAuth = some true)
    (hrole : to_.meta.role = none ∨ to_.meta.role = some [])
    (ls : Storage) (user : JSValue) (hread : readUser ls = .ok user)
    (hexists : truthy user = true) :
    beforeEach ls to_ = .ok [.proceed] := by
  rcases hrole with h | h <;>
    simp [beforeEach, hread, truthyRequiresAuth, hauth, hexists, roleMismatch, h, truthyString]

/-- C10 at a protected target without a role and at one whose role is the empty
string, with a user's session. -/
theorem C10_no_required_role_allows_any_session_witness :
    beforeEach userStorage (target "/profile" (some true) none) = .ok [.proceed] ∧
      beforeEach userStorage (target "/profile" (some true) (some "")) = .ok [.proceed] :=
  ⟨C10_no_required_role_allows_any_session (target "/profile" (some true) none) rfl
      (Or.inl rfl) userStorage userUser rfl rfl,
    C10_no_required_role_allows_any_session (target "/profile" (some true) (some "")) rfl
      (Or.inr rfl) userStorage userUser rfl rfl⟩

/-- C11: for every target that does not require authentication and whose path is
neither `'/login'` nor `'/register'`, the guard calls `next()` once and nothing
else, for every session state: a user of any role, or none. -/
theorem C11_other_open_route_always_allowed (to_ : RouteLocation)
    (hopen : truthyRequiresAuth to_.meta = false)
    (hlogin : to_.path ≠ js "/login") (hregister : to_.path ≠ js "/register")
    (ls : Storage) (user : JSValue) (hread : readUser ls = .ok user) :
    beforeEach ls to_ = .ok [.proceed] := by
  simp [beforeEach, hread, hopen, hlogin, hregister]

/-- C11 at an open path outside the table, with a user's session and with an
empty storage. -/
theorem C11_other_open_route_always_allowed_witness :
    beforeEach userStorage (target "/about" none none) = .ok [.proceed] ∧
      beforeEach [] (target "/about" (some false) none) = .ok [.proceed] :=
  ⟨C11_other_open_route_always_allowed (target "/about" none none) rfl (by decide)
      (by decide) userStorage userUser rfl,
    C11_other_open_route_always_allowed (target "/about" (some false) none) rfl (by decide)
      (by decide) [] .null rfl⟩

/-- Where a redirect of the guard comes from: `'/login'` for a protected target
without session, the dashboard statement for an existing session. -/
theorem beforeEach_redirect_source (to_ : RouteLocation) (ls : Storage) (user : JSValue)
    (hread : readUser ls = .ok user) (p : JSString)
    (hrun : beforeEach ls to_ = .ok [.redirect p]) :
    (truthy user = false ∧ truthyRequiresAuth to_.meta = true ∧ p = js "/login") ∨
    (truthy user = true ∧ nextDashboard user = .ok [.redirect p]) := by
  cases htruthy : truthy user with
  | false =>
    by_cases hauth : truthyRequiresAuth to_.meta = true
    · simp [beforeEach, hread, hauth, htruthy] at hrun
      exact Or.inl ⟨rfl, hauth, hrun.symm⟩
    · simp [beforeEach, hread, hauth, htruthy] at hrun
  | true =>
    refine Or.inr ⟨rfl, ?_⟩
    obtain ⟨role, hrole⟩ := getRole_ok_of_truthy htruthy
    have hmis : ∃ b, roleMismatch to_.meta user = .ok b := by
      unfold roleMismatch
      cases to_.meta.role with
      | none => exact ⟨false, rfl⟩
      | some r =>
        by_cases hr : truthyString r = true
        · exact ⟨!strictEqString role r, by simp [hr, hrole]⟩
        · exact ⟨false, by simp [hr]⟩
    obtain ⟨b, hb⟩ := hmis
    by_cases hauth : truthyRequiresAuth to_.meta = true
    · cases b with
      | true =>
        simp only [beforeEach, hread, hauth, htruthy, hb] at hrun
        simpa using hrun
      | false => simp [beforeEach, hread, hauth, htruthy, hb] at hrun
    · by_cases hcond : (decide (to_.path = js "/login") || decide (to_.path = js "/register")) = true
      · simp only [beforeEach, hread, hauth, htruthy, hcond] at hrun
        simpa using hrun
      · simp only [beforeEach, hread, hauth, htruthy, hcond] at hrun
        simp at hrun

/-- Which records of the table match the three paths the guard redirects to: only
the record of that very path. -/
theorem routes_redirect_targets (r : RouteRecord) (hr : r ∈ routes) :
    (matchesPath r.path (js "/login") = true → r.meta = {}) ∧
    (matchesPath r.path (js "/admin/dashboard") = true →
      r.meta = { requiresAuth := some true, role := some (js "admin") }) ∧
    (matchesPath r.path (js "/user/dashboard") = true →
      r.meta = { requiresAuth := some true, role := some (js "user") }) := by
  revert r
  decide

/-- The guard on a protected target for a session whose `role` is the required
string: `next()`. -/
theorem beforeEach_role_match (to_ : RouteLocation) (q : JSString)
    (hmeta : to_.meta = { requiresAuth := some true, role := some q })
    (ls : Storage) (user : JSValue) (hread : readUser ls = .ok user)
    (hrole : getRole user = .ok (.string q)) :
    beforeEach ls to_ = .ok [.proceed] := by
  have htruthy := truthy_of_getRole_string hrole
  by_cases hq : truthyString q = true <;>
    simp [beforeEach, hread, truthyRequiresAuth, hmeta, htruthy, roleMismatch, hq, hrole,
      strictEqString]

/-- C12: redirects settle in one step. For every target, in particular every
target resolved from a record of the route table, and every session state that is
absent or has role `'admin'` or `'user'`: if the guard redirects to a path `p`,
then `p` is the path of a record of the table, and for every target that the
table resolves for `p` the guard, with the same storage, calls `next()`. -/
theorem C12_redirects_settle_in_one_step (to_ : RouteLocation) (ls : Storage)
    (user : JSValue) (hread : readUser ls = .ok user)
    (hsession : truthy user = false ∨ getRole user = .ok (.string (js "admin")) ∨
      getRole user = .ok (.string (js "user")))
    (p : JSString) (hrun : beforeEach ls to_ = .ok [.redirect p]) :
    (∃ r2 ∈ routes, r2.path = p) ∧
    (∀ r2 ∈ routes, ∀ to2 : RouteLocation, resolvesTo r2 to2 → to2.path = p →
      beforeEach ls to2 = .ok [.proceed]) := by
  have hau : js "user" ≠ js "admin" := by decide
  rcases beforeEach_redirect_source to_ ls user hread p hrun with ⟨hf, _, rfl⟩ | ⟨ht, hd⟩
  · -- no session: the redirect goes to '/login', which is open
    refine ⟨⟨⟨js "/login", some (js "Login"), none, ⟨none, none⟩⟩, by decide, rfl⟩, ?_⟩
    intro r2 hr2 to2 hres hpath
    obtain ⟨hmatch, hmeta⟩ := hres
    rw [hpath] at hmatch
    have hm : to2.meta = {} := by
      rw [hmeta]
      exact (routes_redirect_targets r2 hr2).1 hmatch
    simp [beforeEach, hread, truthyRequiresAuth, hm, hf]
  · rcases hsession with hf | hrole | hrole
    · rw [hf] at ht
      exact Bool.noConfusion ht
    · -- an administrator is sent to '/admin/dashboard', which requires 'admin'
      have hp : p = js "/admin/dashboard" := by
        simp [nextDashboard, hrole, strictEqString] at hd
        exact hd.symm
      subst hp
      refine ⟨⟨⟨js "/admin/dashboard", some (js "AdminDashboard"), none,
        ⟨some true, some (js "admin")⟩⟩, by decide, rfl⟩, ?_⟩
      intro r2 hr2 to2 hres hpath
      obtain ⟨hmatch, hmeta⟩ := hres
      rw [hpath] at hmatch
      exact beforeEach_role_match to2 (js "admin")
        (by rw [hmeta]; exact (routes_redirect_targets r2 hr2).2.1 hmatch) ls user hread hrole
    · -- a user is sent to '/user/dashboard', which requires 'user'
      have hp : p = js "/user/dashboard" := by
        simp [nextDashboard, hrole, strictEqString, hau] at hd
        exact hd.symm
      subst hp
      refine ⟨⟨⟨js "/user/dashboard", some (js "UserDashboard"), none,
        ⟨some true, some (js "user")⟩⟩, by decide, rfl⟩, ?_⟩
      intro r2 hr2 to2 hres hpath
      obtain ⟨hmatch, hmeta⟩ := hres
      rw [hpath] at hmatch
      exact beforeEach_role_match to2 (js "user")
        (by rw [hmeta]; exact (routes_redirect_targets r2 hr2).2.2 hmatch) ls user hread hrole

/-- C12 at the target `/admin/charts` of the table with a user's session: the
guard redirects to `/user/dashboard`, a path of the table, and allows the target
of that record. -/
theorem C12_redirects_settle_in_one_step_witness :
    beforeEach userStorage (target "/admin/charts" (some true) (some "admin"))
        = .ok [.redirect (js "/user/dashboard")] ∧
      (∃ r2 ∈ routes, r2.path = js "/user/dashboard") ∧
      beforeEach userStorage (target "/user/dashboard" (some true) (some "user"))
        = .ok [.proceed] :=
  have h := C12_redirects_settle_in_one_step
    (target "/admin/charts" (some true) (some "admin")) userStorage userUser rfl
    (Or.inr (Or.inr rfl)) (js "/user/dashboard") rfl
  ⟨rfl, h.1,
    h.2 { path := js "/user/dashboard", name := some (js "UserDashboard"),
          meta := { requiresAuth := some true, role := some (js "user") } }
      (by decide) (target "/user/dashboard" (some true) (some "user")) ⟨by decide, rfl⟩ rfl⟩

/-- A value other than the string `s` is not strictly equal to `s`. -/
theorem strictEqString_of_ne {v : JSValue} {s : JSString} (h : v ≠ .string s) :
    strictEqString v s = false := by
  cases v with
  | string t =>
    have hts : t ≠ s := fun e => h (by rw [e])
    simp [strictEqString, hts]
  | _ => rfl

/-- C13: for every existing session whose `role` is neither `'admin'` nor `'user'`
(`undefined` when the stored value has no `role`), the guard redirects every
target of every protected record of the route table to `'/user/dashboard'`, so it
allows none of them; the record `'/user/dashboard'` is one of them, so the target
of the redirect is redirected to `'/user/dashboard'` again. -/
theorem C13_other_role_redirected_everywhere (ls : Storage) (user role : JSValue)
    (hread : readUser ls = .ok user) (hexists : truthy user = true)
    (hrole : getRole user = .ok role)
    (hna : role ≠ .string (js "admin")) (hnu : role ≠ .string (js "user")) :
    (∀ r ∈ routes, r.meta.requiresAuth = some true → ∀ to_ : RouteLocation,
      resolvesTo r to_ →
        beforeEach ls to_ = .ok [.redirect (js "/user/dashboard")] ∧
        beforeEach ls to_ ≠ .ok [.proceed]) ∧
    (∃ r2 ∈ routes, r2.path = js "/user/dashboard" ∧ r2.meta.requiresAuth = some true) ∧
    (∀ r2 ∈ routes, ∀ to2 : RouteLocation, resolvesTo r2 to2 →
      to2.path = js "/user/dashboard" →
        beforeEach ls to2 = .ok [.redirect (js "/user/dashboard")]) := by
  have hsa := strictEqString_of_ne hna
  have hsu := strictEqString_of_ne hnu
  have key : ∀ r ∈ routes, r.meta.requiresAuth = some true → ∀ to_ : RouteLocation,
      resolvesTo r to_ → beforeEach ls to_ = .ok [.redirect (js "/user/dashboard")] := by
    intro r hr hauth to_ hto
    obtain ⟨_, hmeta⟩ := hto
    have hta : truthyString (js "admin") = true := by decide
    have htu : truthyString (js "user") = true := by decide
    rcases routes_protected r hr hauth with ⟨hq, _⟩ | ⟨hq, _⟩ <;>
      simp [beforeEach, hread, truthyRequiresAuth, hmeta, hauth, hexists, roleMismatch, hq,
        hta, htu, hrole, hsa, hsu, nextDashboard]
  refine ⟨?_, ?_, ?_⟩
  · intro r hr hauth to_ hto
    have hgo := key r hr hauth to_ hto
    refine ⟨hgo, ?_⟩
    rw [hgo]
    intro h
    injection h with h
    injection h with h
    exact NextCall.noConfusion h
  · exact ⟨⟨js "/user/dashboard", some (js "UserDashboard"), none,
      ⟨some true, some (js "user")⟩⟩, by decide, rfl, rfl⟩
  · intro r2 hr2 to2 hres hpath
    have hmatch := hres.1
    rw [hpath] at hmatch
    have hm := (routes_redirect_targets r2 hr2).2.2 hmatch
    exact key r2 hr2 (by rw [hm]) to2 hres

/-- C13 at a session stored without a role: `/admin/users` is redirected to
`/user/dashboard`, and so is `/user/dashboard` itself. -/
theorem C13_other_role_redirected_everywhere_witness :
    beforeEach guestStorage (target "/admin/users" (some true) (some "admin"))
        = .ok [.redirect (js "/user/dashboard")] ∧
      beforeEach guestStorage (target "/user/dashboard" (some true) (some "user"))
        = .ok [.redirect (js "/user/dashboard")] :=
  have h := C13_other_role_redirected_everywhere guestStorage guestUser .undefined rfl rfl rfl
    (fun e => JSValue.noConfusion e) (fun e => JSValue.noConfusion e)
  ⟨(h.1 ⟨js "/admin/users", some (js "AdminUsers"), none, ⟨some true, some (js "admin")⟩⟩
      (by decide) rfl (target "/admin/users" (some true) (some "admin")) ⟨by decide, rfl⟩).1,
    h.2.2 ⟨js "/user/dashboard", some (js "UserDashboard"), none, ⟨some true, some (js "user")⟩⟩
      (by decide) (target "/user/dashboard" (some true) (some "user")) ⟨by decide, rfl⟩ rfl⟩

/-- C14: in the route table every record whose path starts with `'/admin/'` has
meta `requiresAuth: true` and role `'admin'`, every record whose path starts with
`'/user/'` has meta `requiresAuth: true` and role `'user'`, and the records with
no access requirement, which are those without meta, are exactly `'/'`,
`'/login'` and `'/register'`. -/
theorem C14_route_table_protection :
    (∀ r ∈ routes, (js "/admin/").isPrefixOf r.path = true →
      r.meta = { requiresAuth := some true, role := some (js "admin") }) ∧
    (∀ r ∈ routes, (js "/user/").isPrefixOf r.path = true →
      r.meta = { requiresAuth := some true, role := some (js "user") }) ∧
    (∀ r ∈ routes, truthyRequiresAuth r.meta = false ↔ r.meta = {}) ∧
    (routes.filter (fun r => !truthyRequiresAuth r.meta)).map (fun r => r.path)
      = [js "/", js "/login", js "/register"] := by
  refine ⟨by decide, by decide, by decide, by decide⟩

/-- C14 at the record `/admin/charts`: its path starts with `/admin/` and its meta
requires the role `'admin'`. -/
theorem C14_route_table_protection_witness :
    (⟨js "/admin/charts", some (js "AdminCharts"), none,
        ⟨some true, some (js "admin")⟩⟩ : RouteRecord).meta
      = { requiresAuth := some true, role := some (js "admin") } :=
  C14_route_table_protection.1
    ⟨js "/admin/charts", some (js "AdminCharts"), none, ⟨some true, some (js "admin")⟩⟩
    (by decide) (by decide)

end Router
